import Mathlib

/-!
Verification of `atom/service.py` (AtomService, the Atom Publishing Protocol
HTTP client layer of the gdata python client).

The Python module is shallowly embedded:
* strings are modelled as Lean `String` treated as byte strings (every
  character one byte, the inputs of interest being ASCII);
* Python dicts used as header mappings are association lists with a
  replace-or-append assignment (`setHeader`), lookups by exact key;
* object identity of the mutable header dicts is modelled by a small heap
  (`Store`), a list of dicts indexed by references, so that in-place
  mutation and aliasing are observable;
* the regular expression `URL_REGEX = http(s)?\x3a//([\w\.-]*)(\x3a(\d+))?(/.*)?`
  used with `re.match` (prefix matching) is embedded as the character-list
  parser `urlRegexMatch`; all groups after the literal scheme are optional
  and greedy, so the leftmost-greedy Python semantics coincides with the
  straight-line parse implemented here;
* networking (`httplib`) is external to the repository: building a
  connection is modelled as producing a `Request` record holding exactly the
  data the code feeds to `putrequest`, `putheader` and `send`;
* `ElementTree` is external to the repository: a request body is either an
  element (identified by its `tostring` serialization) or a stringable value
  (identified by its `str()` form).
-/

/-- The character class `[\w\.-]` of `URL_REGEX` (Python 2 `\w` without
`re.UNICODE` is `[A-Za-z0-9_]`). -/
def isWordChar (c : Char) : Bool :=
  c.isAlphanum || c == '_' || c == '.' || c == '-'

/-- Python `int` applied to a non-empty string of decimal digits, as in
`int(m.group(4))`. -/
def natOfDigits (l : List Char) : Nat :=
  l.foldl (fun acc c => acc * 10 + (c.toNat - '0'.toNat)) 0

/-- The capture groups of `URL_REGEX`: group 1 (`s` present), group 2 (host),
groups 3 and 4 (the `\x3a(\d+)` port, present iff a colon followed by at least
one digit occurs), group 5 (the `/.*` path). -/
structure UrlMatch where
  secure : Bool
  host : String
  portGroup : Option Nat
  pathGroup : Option String
deriving DecidableEq

/-- Matching of `URL_REGEX` after the literal `http(s)?\x3a//` prefix: the
greedy host run, then the optional port group (present iff a colon is
followed by at least one digit), then the optional path group (present iff
the next character is a slash; `.*` stops at a newline). -/
def matchAfterScheme (secure : Bool) (r2 : List Char) : UrlMatch :=
  let host := r2.takeWhile isWordChar
  let r3 := r2.dropWhile isWordChar
  let pr :=
    match r3 with
    | ':' :: r3' =>
      let ds := r3'.takeWhile Char.isDigit
      if ds.isEmpty then ((none : Option Nat), r3)
      else (some (natOfDigits ds), r3'.dropWhile Char.isDigit)
    | _ => ((none : Option Nat), r3)
  let pathGroup :=
    match pr.2 with
    | '/' :: r4' => some (String.mk ('/' :: r4'.takeWhile (fun c => c != '\n')))
    | _ => none
  { secure := secure, host := String.mk host, portGroup := pr.1,
    pathGroup := pathGroup }

/-- `URL_REGEX.match(url)`: `None` unless the string starts with `http://`
or `https://`; otherwise the capture groups. -/
def urlRegexMatch (s : List Char) : Option UrlMatch :=
  match s with
  | 'h' :: 't' :: 't' :: 'p' :: 's' :: ':' :: '/' :: '/' :: r =>
    some (matchAfterScheme true r)
  | 'h' :: 't' :: 't' :: 'p' :: ':' :: '/' :: '/' :: r =>
    some (matchAfterScheme false r)
  | _ => none

/-- Header values: Python stores `len(data_str)` (an int) and strings in the
same dict. -/
inductive HVal where
  | nat : Nat → HVal
  | str : String → HVal
deriving DecidableEq

/-- A Python dict used as a header mapping: an association list with exact
string keys. -/
abbrev Headers := List (String × HVal)

/-- Python dict assignment `d[k] = v`: replace the entry for the exact key
if present, append otherwise. -/
def setHeader (h : Headers) (k : String) (v : HVal) : Headers :=
  if h.any (fun p => p.1 == k) then
    h.map (fun p => if p.1 == k then (k, v) else p)
  else h ++ [(k, v)]

/-- Python dict lookup `d.get(k)` for the exact key. -/
def getHeader (h : Headers) (k : String) : Option HVal :=
  (h.find? (fun p => p.1 == k)).map (fun p => p.2)

/-- A reference to a mutable header dict. -/
abbrev Ref := Nat

/-- The heap of mutable header dicts. -/
abbrev Store := List Headers

/-- Dereference a dict. -/
def readRef (σ : Store) (r : Ref) : Headers :=
  σ.getD r []

/-- Mutate a dict in place. -/
def writeRef (σ : Store) (r : Ref) (h : Headers) : Store :=
  σ.set r h

/-- Allocate a fresh dict. -/
def allocRef (σ : Store) (h : Headers) : Store × Ref :=
  (σ ++ [h], σ.length)

/-- The `AtomService` instance state: `server`, the class defaults `port`
and `ssl`, and the reference to the `additional_headers` dict. -/
structure AtomService where
  server : Option String
  port : Nat
  ssl : Bool
  additional_headers : Ref
deriving DecidableEq

/-- `AtomService.__init__`: `self.additional_headers = additional_headers or {}`
(a falsy argument, `None` or an empty dict, is replaced by a freshly
allocated dict), then the `User-Agent` entry is written. -/
def AtomService.init (σ : Store) (server : Option String)
    (additional_headers : Option Ref) : Store × AtomService :=
  let ar :=
    match additional_headers with
    | none => allocRef σ []
    | some r0 => if (readRef σ r0).isEmpty then allocRef σ [] else (σ, r0)
  let σ2 := writeRef ar.1 ar.2
    (setHeader (readRef ar.1 ar.2) "User-Agent"
      (HVal.str "Python Google Data Client Lib"))
  (σ2, { server := server, port := 80, ssl := false,
         additional_headers := ar.2 })

/-- `AtomService._ProcessUrl`: on no match return the configured
`(server, port, ssl, url)`; on a match, group 1 forces `(443, True)`, an
explicit port group then overrides the port, the host always replaces the
server, and the path group (or `/`) becomes the uri. -/
def AtomService.ProcessUrl (self : AtomService) (url : String) :
    Option String × Nat × Bool × String :=
  match urlRegexMatch url.toList with
  | none => (self.server, self.port, self.ssl, url)
  | some m =>
    let ps := if m.secure then ((443 : Nat), true) else (self.port, self.ssl)
    let port := match m.portGroup with
      | none => ps.1
      | some p => p
    let uri := match m.pathGroup with
      | some p => p
      | none => "/"
    (some m.host, port, ps.2, uri)

/-- The characters Python `str.strip()` removes. -/
def isPyWhitespace (c : Char) : Bool :=
  c == ' ' || c == '\t' || c == '\n' || c == '\r' || c == '\x0b' || c == '\x0c'

/-- Python `str.strip()`. -/
def pyStrip (s : String) : String :=
  String.mk (((s.toList.dropWhile isPyWhitespace).reverse.dropWhile
    isPyWhitespace).reverse)

/-- The bytes of a Python 2 `str` (the strings of interest being ASCII). -/
def pyBytes (s : String) : List Nat :=
  s.toList.map Char.toNat

/-- The base64 alphabet. -/
def b64Alphabet : List Char :=
  "ABCDEFGHIJKLMNOPQRSTUVWXYZabcdefghijklmnopqrstuvwxyz0123456789+/".toList

/-- The base64 digit for a 6-bit value. -/
def b64Char (n : Nat) : Char :=
  b64Alphabet.getD n 'A'

/-- Standard base64 of a byte sequence, three input bytes to four output
characters, padded with `=`. -/
def b64EncodeBytes : List Nat → List Char
  | [] => []
  | [a] => [b64Char (a / 4), b64Char (a % 4 * 16), '=', '=']
  | [a, b] => [b64Char (a / 4), b64Char (a % 4 * 16 + b / 16),
               b64Char (b % 16 * 4), '=']
  | a :: b :: c :: rest =>
    b64Char (a / 4) :: b64Char (a % 4 * 16 + b / 16) ::
    b64Char (b % 16 * 4 + c / 64) :: b64Char (c % 64) :: b64EncodeBytes rest

/-- Python `base64.b64encode`: plain base64 with no line breaks. -/
def b64encode (bytes : List Nat) : String :=
  String.mk (b64EncodeBytes bytes)

/-- The chunks of `MAXBINSIZE = 57` bytes that `base64.encodestring` feeds
to `binascii.b2a_base64` (fuel-indexed so that it reduces by evaluation;
the fuel `l.length` always suffices since each step consumes at least one
element of a non-empty list). -/
def chunksAux : Nat → List Nat → List (List Nat)
  | 0, _ => []
  | _, [] => []
  | Nat.succ n, l => l.take 57 :: chunksAux n (l.drop 57)

/-- The 57-byte chunks of a byte sequence. -/
def chunks57 (l : List Nat) : List (List Nat) :=
  chunksAux l.length l

/-- Python 2 `base64.encodestring`: each 57-byte chunk encoded by
`binascii.b2a_base64`, which appends a newline to every chunk, the pieces
concatenated. -/
def encodestring (bytes : List Nat) : String :=
  String.mk ((chunks57 bytes).foldr
    (fun c acc => b64EncodeBytes c ++ '\n' :: acc) [])

/-- `AtomService.UseBasicAuth`: base64-encode `username:password` with
`base64.encodestring`, strip it, and assign the `Authorization` entry of the
`additional_headers` dict. No request is built and no connection is
opened. -/
def AtomService.UseBasicAuth (σ : Store) (self : AtomService)
    (username password : String) : Store :=
  let base_64_string := pyStrip (encodestring (pyBytes (username ++ ":" ++ password)))
  writeRef σ self.additional_headers
    (setHeader (readRef σ self.additional_headers) "Authorization"
      (HVal.str ("Basic " ++ base_64_string)))

/-- The always-safe characters of `urllib.quote` (letters, digits, `_.-`). -/
def always_safe (c : Char) : Bool :=
  c.isAlphanum || c == '_' || c == '.' || c == '-'

/-- An uppercase hexadecimal digit. -/
def hexUpper (n : Nat) : Char :=
  "0123456789ABCDEF".toList.getD n '0'

/-- The `%XX` escape of one byte, as produced by `urllib.quote`. -/
def quoteChar (c : Char) : String :=
  String.mk ['%', hexUpper (c.toNat / 16 % 16), hexUpper (c.toNat % 16)]

/-- `urllib.quote_plus` with its default empty `safe` set: always-safe
characters kept, spaces turned into `+`, every other byte `%XX`-escaped. -/
def quote_plus (s : String) : String :=
  s.toList.foldr
    (fun c acc =>
      (if always_safe c then String.singleton c
       else if c == ' ' then "+"
       else quoteChar c) ++ acc) ""

/-- A query-parameter dict, in iteration order. -/
abbrev Params := List (String × String)

/-- `DictionaryToParamList`: `transform_op` is `quote_plus` when
`escape_params` is true and the identity (`str`) otherwise; each pair is
transformed and joined with `=`. A falsy `url_parameters` (`None` or empty)
contributes nothing. -/
def DictionaryToParamList (url_parameters : Option Params)
    (escape_params : Bool) : List String :=
  let transform_op : String → String :=
    if escape_params then quote_plus else (fun s => s)
  let parameter_tuples :=
    (url_parameters.getD []).map (fun pv => (transform_op pv.1, transform_op pv.2))
  parameter_tuples.map (fun x => x.1 ++ "=" ++ x.2)

/-- Python `sep.join(list)`. -/
def joinWith (sep : String) : List String → String
  | [] => ""
  | [a] => a
  | a :: b :: rest => a ++ sep ++ joinWith sep (b :: rest)

/-- `BuildUri`: when the parameter list is non-empty it is joined onto the
uri with `&` if the uri already contains a `?`, and appended after a fresh
`?` otherwise; with no parameters the uri is returned unchanged. A pure
function. -/
def BuildUri (uri : String) (url_params : Option Params)
    (escape_params : Bool) : String :=
  let parameter_list := DictionaryToParamList url_params escape_params
  if parameter_list.isEmpty then uri
  else if uri.toList.contains '?' then joinWith "&" (uri :: parameter_list)
  else uri ++ "?" ++ joinWith "&" parameter_list

/-- A request body for `Post`/`Put`: an `ElementTree` element (identified by
its `ElementTree.tostring` serialization, that library being external to the
repository) or any other value (identified by its `str()` form). -/
inductive RequestData where
  | element : String → RequestData
  | stringable : String → RequestData
deriving DecidableEq

/-- The `data_str` computed by `Post`/`Put`: `ElementTree.tostring(data)`
for an element, `str(data)` otherwise. -/
def RequestData.serialize : RequestData → String
  | RequestData.element s => s
  | RequestData.stringable s => s

/-- The request assembled by `_CreateConnection`: the data handed to
`putrequest` (method and uri on the resolved server, port, ssl flag), the
header lines handed to `putheader` in order (the `additional_headers` dict
first, then the `extra_headers` dict), and the body later handed to
`send`. -/
structure Request where
  http_operation : String
  server : Option String
  port : Nat
  ssl : Bool
  uri : String
  headerLines : List (String × HVal)
  body : Option String
deriving DecidableEq

/-- `AtomService._CreateConnection`: build the full uri, resolve it, and
emit the request line and the header lines; a non-dict `extra_headers`
(`None`) contributes no lines. -/
def AtomService.CreateConnection (σ : Store) (self : AtomService)
    (uri : String) (http_operation : String) (extra_headers : Option Ref)
    (url_params : Option Params) (escape_params : Bool) : Request :=
  let full_uri := BuildUri uri url_params escape_params
  let t := self.ProcessUrl full_uri
  let extra := match extra_headers with
    | some r => readRef σ r
    | none => []
  { http_operation := http_operation, server := t.1, port := t.2.1,
    ssl := t.2.2.1, uri := t.2.2.2,
    headerLines := readRef σ self.additional_headers ++ extra,
    body := none }

/-- `AtomService.Post`: serialize the data, then assign `Content-Length`
and `Content-Type` on the `extra_headers` dict in place (Python raises
`TypeError` on item assignment when `extra_headers` is `None`, modelled by
the error branch), build the connection and send the body. -/
def AtomService.Post (σ : Store) (self : AtomService) (data : RequestData)
    (uri : String) (extra_headers : Option Ref) (url_params : Option Params)
    (escape_params : Bool) (content_type : String) :
    Except String (Store × Request) :=
  let data_str := data.serialize
  match extra_headers with
  | none => Except.error "TypeError: NoneType object does not support item assignment"
  | some r =>
    let σ1 := writeRef σ r
      (setHeader (readRef σ r) "Content-Length" (HVal.nat data_str.length))
    let σ2 := writeRef σ1 r
      (setHeader (readRef σ1 r) "Content-Type" (HVal.str content_type))
    let conn := AtomService.CreateConnection σ2 self uri "POST" (some r)
      url_params escape_params
    Except.ok (σ2, { conn with body := some data_str })

/-- `AtomService.Put`: identical to `Post` with the `PUT` operation. -/
def AtomService.Put (σ : Store) (self : AtomService) (data : RequestData)
    (uri : String) (extra_headers : Option Ref) (url_params : Option Params)
    (escape_params : Bool) (content_type : String) :
    Except String (Store × Request) :=
  let data_str := data.serialize
  match extra_headers with
  | none => Except.error "TypeError: NoneType object does not support item assignment"
  | some r =>
    let σ1 := writeRef σ r
      (setHeader (readRef σ r) "Content-Length" (HVal.nat data_str.length))
    let σ2 := writeRef σ1 r
      (setHeader (readRef σ1 r) "Content-Type" (HVal.str content_type))
    let conn := AtomService.CreateConnection σ2 self uri "PUT" (some r)
      url_params escape_params
    Except.ok (σ2, { conn with body := some data_str })

/-- The header that governs a key once all lines are written: the last
occurrence of the exact key among the emitted header lines (per-call
headers come after the defaults, so they win on collision). -/
def effectiveHeader (lines : List (String × HVal)) (k : String) : Option HVal :=
  (lines.reverse.find? (fun p => p.1 == k)).map (fun p => p.2)


/-! ## Helper lemmas -/

theorem takeWhile_of_all {α : Type} {p : α → Bool} {l : List α}
    (h : ∀ x ∈ l, p x = true) : l.takeWhile p = l := by
  induction l with
  | nil => rfl
  | cons a t ih =>
    have ha := h a (by simp)
    have ht := ih (fun x hx => h x (by simp [hx]))
    simp [List.takeWhile_cons, ha, ht]

theorem dropWhile_of_all_neg {α : Type} {p : α → Bool} {l : List α}
    (h : ∀ x ∈ l, p x = false) : l.dropWhile p = l := by
  cases l with
  | nil => rfl
  | cons a t => simp [List.dropWhile_cons, h a (by simp)]

theorem takeWhile_append_stop {α : Type} {p : α → Bool} (xs : List α) (y : α)
    (ys : List α) (hall : ∀ x ∈ xs, p x = true) (hy : p y = false) :
    (xs ++ y :: ys).takeWhile p = xs ∧ (xs ++ y :: ys).dropWhile p = y :: ys := by
  induction xs with
  | nil => simp [List.takeWhile_cons, List.dropWhile_cons, hy]
  | cons a t ih =>
    have ha : p a = true := hall a (by simp)
    have ht := ih (fun x hx => hall x (by simp [hx]))
    constructor
    · simp [List.takeWhile_cons, ha, ht.1]
    · simp [List.dropWhile_cons, ha, ht.2]

theorem joinWith_cons (sep a : String) (l : List String) (h : l ≠ []) :
    joinWith sep (a :: l) = a ++ sep ++ joinWith sep l := by
  cases l with
  | nil => exact absurd rfl h
  | cons b t => rfl

theorem find?_map_keyReplace (k : String) (v : HVal) (h : Headers) :
    (h.map (fun p => if p.1 == k then (k, v) else p)).find? (fun p => p.1 == k) =
      if h.any (fun p => p.1 == k) then some (k, v) else none := by
  induction h with
  | nil => rfl
  | cons q t ih =>
    by_cases hq : q.1 = k
    · simp [hq, List.find?_cons_of_pos]
    · have hq' : (q.1 == k) = false := by simp [hq]
      simp only [List.map_cons, hq', if_false, List.any_cons, Bool.false_or,
        Bool.if_false_left]
      rw [List.find?_cons_of_neg _ (by simp [hq]), ih]

theorem find?_eq_none_of_any_false (k : String) (h : Headers)
    (hany : h.any (fun p => p.1 == k) = false) :
    h.find? (fun p => p.1 == k) = none := by
  rw [List.find?_eq_none]
  intro p hp
  have := List.any_eq_false.1 hany p hp
  simp at this ⊢
  exact this

theorem getHeader_setHeader_self (h : Headers) (k : String) (v : HVal) :
    getHeader (setHeader h k v) k = some v := by
  unfold getHeader setHeader
  cases hany : h.any (fun p => p.1 == k) with
  | true =>
    simp only [if_true, eq_self_iff_true]
    rw [find?_map_keyReplace, hany]
    rfl
  | false =>
    simp only [Bool.false_eq_true, if_false]
    rw [List.find?_append, find?_eq_none_of_any_false k h hany]
    simp [List.find?_cons_of_pos]

theorem find?_map_keyReplace_ne (k k' : String) (v : HVal) (h : Headers)
    (hne : k' ≠ k) :
    (h.map (fun p => if p.1 == k then (k, v) else p)).find? (fun p => p.1 == k') =
      h.find? (fun p => p.1 == k') := by
  induction h with
  | nil => rfl
  | cons q t ih =>
    by_cases hq : q.1 = k
    · have h2 : (q.1 == k') = false := by simp [hq, Ne.symm hne]
      simp only [List.map_cons, hq, beq_self_eq_true, if_true]
      rw [List.find?_cons_of_neg _ (by simp [Ne.symm hne]),
        List.find?_cons_of_neg _ (by simp [hq, Ne.symm hne]), ih]
    · have hq' : (q.1 == k) = false := by simp [hq]
      simp only [List.map_cons, hq', Bool.false_eq_true, if_false]
      cases hqk' : (q.1 == k') with
      | true => simp only [List.find?_cons, hqk']
      | false => simp only [List.find?_cons, hqk', ih]

theorem getHeader_setHeader_ne (h : Headers) (k k' : String) (v : HVal)
    (hne : k' ≠ k) : getHeader (setHeader h k v) k' = getHeader h k' := by
  unfold getHeader setHeader
  cases hany : h.any (fun p => p.1 == k) with
  | true => rw [if_pos (by simp [hany]), find?_map_keyReplace_ne k k' v h hne]
  | false =>
    rw [if_neg (by simp [hany]), List.find?_append]
    have hkk' : ((k, v).1 == k') = false := by simp [Ne.symm hne]
    rw [List.find?_cons_of_neg _ (by simp [Ne.symm hne])]
    simp

theorem mem_setHeader_self (h : Headers) (k : String) (v : HVal) :
    (k, v) ∈ setHeader h k v := by
  unfold setHeader
  cases hany : h.any (fun p => p.1 == k) with
  | true =>
    simp only [if_true, eq_self_iff_true]
    obtain ⟨q, hq, hqk⟩ := List.any_eq_true.1 hany
    exact List.mem_map.2 ⟨q, hq, by simp [hqk]⟩
  | false =>
    simp

theorem mem_setHeader_key (h : Headers) (k : String) (v v' : HVal)
    (hmem : (k, v') ∈ setHeader h k v) : v' = v := by
  unfold setHeader at hmem
  cases hany : h.any (fun p => p.1 == k) with
  | true =>
    rw [hany] at hmem
    simp only [if_true, eq_self_iff_true] at hmem
    obtain ⟨⟨qk, qv⟩, hq, hfq⟩ := List.mem_map.1 hmem
    by_cases hqk : qk = k
    · simp [hqk] at hfq
      exact hfq.symm
    · simp [hqk] at hfq
  | false =>
    rw [hany] at hmem
    simp only [Bool.false_eq_true, if_false, List.mem_append] at hmem
    cases hmem with
    | inl hin =>
      have := List.any_eq_false.1 hany _ hin
      simp at this
    | inr hin =>
      simp at hin
      exact hin

theorem mem_setHeader_ne (h : Headers) (k k' : String) (v v' : HVal)
    (hne : k' ≠ k) : (k', v') ∈ setHeader h k v ↔ (k', v') ∈ h := by
  unfold setHeader
  cases hany : h.any (fun p => p.1 == k) with
  | true =>
    simp only [if_true, eq_self_iff_true]
    constructor
    · intro hmem
      obtain ⟨⟨qk, qv⟩, hq, hfq⟩ := List.mem_map.1 hmem
      by_cases hqk : qk = k
      · simp [hqk] at hfq
        exact absurd hfq.1.symm hne
      · simp [hqk] at hfq
        rw [← hfq.1, ← hfq.2]
        exact hq
    · intro hmem
      refine List.mem_map.2 ⟨(k', v'), hmem, ?_⟩
      simp [hne]
  | false =>
    simp only [Bool.false_eq_true, if_false, List.mem_append]
    constructor
    · intro hmem
      cases hmem with
      | inl hin => exact hin
      | inr hin =>
        simp at hin
        exact absurd hin.1 hne
    · exact fun hmem => Or.inl hmem

theorem effectiveHeader_append_extra (l₁ l₂ : List (String × HVal)) (k : String)
    (v : HVal) (hmem : (k, v) ∈ l₂) (huniq : ∀ v', (k, v') ∈ l₂ → v' = v) :
    effectiveHeader (l₁ ++ l₂) k = some v := by
  unfold effectiveHeader
  rw [List.reverse_append, List.find?_append]
  have hsome : (l₂.reverse.find? (fun p => p.1 == k)).isSome := by
    apply List.find?_isSome.2
    exact ⟨(k, v), by simp [hmem], by simp⟩
  obtain ⟨q, hq⟩ := Option.isSome_iff_exists.1 hsome
  have hqk := List.find?_some hq
  have hqmem : q ∈ l₂ := List.mem_reverse.1 (List.mem_of_find?_eq_some hq)
  simp at hqk
  have hq2 : q = (k, q.2) := by
    cases q
    simp_all
  have hv : q.2 = v := huniq q.2 (hq2 ▸ hqmem)
  rw [hq]
  simp [Option.or, hv]

theorem readRef_writeRef_self (σ : Store) (r : Ref) (h : Headers)
    (hr : r < σ.length) : readRef (writeRef σ r h) r = h := by
  unfold readRef writeRef
  simp [List.getD, List.get?_eq_getElem?, List.getElem?_set_self, hr]

theorem length_writeRef (σ : Store) (r : Ref) (h : Headers) :
    (writeRef σ r h).length = σ.length :=
  List.length_set σ r h

theorem matchAfterScheme_with_port (b : Bool) (host ds rest : List Char)
    (hw : ∀ x ∈ host, isWordChar x = true) (hd : ds ≠ [])
    (hds : ∀ x ∈ ds, Char.isDigit x = true) (hr : '\n' ∉ rest) :
    matchAfterScheme b (host ++ ':' :: (ds ++ '/' :: rest)) =
      { secure := b, host := String.mk host,
        portGroup := some (natOfDigits ds),
        pathGroup := some (String.mk ('/' :: rest)) } := by
  have h1 := takeWhile_append_stop host ':' (ds ++ '/' :: rest) hw (by decide)
  have h2 := takeWhile_append_stop ds '/' rest hds (by decide)
  have h3 : rest.takeWhile (fun c => c != '\n') = rest := by
    apply takeWhile_of_all
    intro x hx
    simp only [bne_iff_ne, ne_eq]
    exact fun e => hr (e ▸ hx)
  have hne : ds.isEmpty = false := by
    cases ds with
    | nil => exact absurd rfl hd
    | cons a t => rfl
  simp only [matchAfterScheme, h1.1, h1.2]
  simp [h2.1, h2.2, h3, hne]

theorem matchAfterScheme_no_port (b : Bool) (host rest : List Char)
    (hw : ∀ x ∈ host, isWordChar x = true) (hr : '\n' ∉ rest) :
    matchAfterScheme b (host ++ '/' :: rest) =
      { secure := b, host := String.mk host, portGroup := none,
        pathGroup := some (String.mk ('/' :: rest)) } := by
  have h1 := takeWhile_append_stop host '/' rest hw (by decide)
  have h3 : rest.takeWhile (fun c => c != '\n') = rest := by
    apply takeWhile_of_all
    intro x hx
    simp only [bne_iff_ne, ne_eq]
    exact fun e => hr (e ▸ hx)
  simp only [matchAfterScheme, h1.1, h1.2]
  simp [h3]

/-! ## Claims -/

/-- C2 counterexample: the claim states that for `https://host:N/path` the
resolved port is 443 regardless of N. On the code, the explicit port is
assigned after the 443 default, so `https://host:8080/path` resolves to
port 8080, not 443. -/
theorem claim_C2_counterexample :
    (AtomService.mk (some "www.google.com") 80 false 0).ProcessUrl
        "https://host:8080/path" = (some "host", 8080, true, "/path") ∧
      (8080 : Nat) ≠ 443 := by
  constructor
  · rfl
  · decide

/-- C2 amended: for every https absolute URL, resolution yields
useEncryption = true; the port is 443 when no explicit port component is
present, but an explicit `:N` component overrides it and the resolved port
is N. -/
theorem claim_C2_https_port_resolution :
    (∀ (c : AtomService) (url : String) (host ds rest : List Char),
      url.toList = 'h' :: 't' :: 't' :: 'p' :: 's' :: ':' :: '/' :: '/' ::
        (host ++ ':' :: (ds ++ '/' :: rest)) →
      (∀ x ∈ host, isWordChar x = true) → ds ≠ [] →
      (∀ x ∈ ds, Char.isDigit x = true) → '\n' ∉ rest →
      c.ProcessUrl url =
        (some (String.mk host), natOfDigits ds, true, String.mk ('/' :: rest))) ∧
    (∀ (c : AtomService) (url : String) (host rest : List Char),
      url.toList = 'h' :: 't' :: 't' :: 'p' :: 's' :: ':' :: '/' :: '/' ::
        (host ++ '/' :: rest) →
      (∀ x ∈ host, isWordChar x = true) → '\n' ∉ rest →
      c.ProcessUrl url =
        (some (String.mk host), 443, true, String.mk ('/' :: rest))) := by
  constructor
  · intro c url host ds rest hurl hw hd hds hr
    unfold AtomService.ProcessUrl
    rw [hurl]
    rw [show urlRegexMatch ('h' :: 't' :: 't' :: 'p' :: 's' :: ':' :: '/' :: '/' ::
        (host ++ ':' :: (ds ++ '/' :: rest))) =
      some (matchAfterScheme true (host ++ ':' :: (ds ++ '/' :: rest))) from rfl]
    rw [matchAfterScheme_with_port true host ds rest hw hd hds hr]
    simp
  · intro c url host rest hurl hw hr
    unfold AtomService.ProcessUrl
    rw [hurl]
    rw [show urlRegexMatch ('h' :: 't' :: 't' :: 'p' :: 's' :: ':' :: '/' :: '/' ::
        (host ++ '/' :: rest)) =
      some (matchAfterScheme true (host ++ '/' :: rest)) from rfl]
    rw [matchAfterScheme_no_port true host rest hw hr]
    simp

/-- C2 witness: both parts of the amended statement applied at concrete
inputs. -/
theorem claim_C2_witness :
    (AtomService.mk (some "www.google.com") 80 false 0).ProcessUrl
        "https://host:8080/path" = (some "host", 8080, true, "/path") ∧
    (AtomService.mk (some "www.google.com") 80 false 0).ProcessUrl
        "https://host/path" = (some "host", 443, true, "/path") := by
  constructor
  · have h := claim_C2_https_port_resolution.1
      (AtomService.mk (some "www.google.com") 80 false 0) "https://host:8080/path"
      "host".toList "8080".toList "path".toList
      (by decide) (by decide) (by decide) (by decide) (by decide)
    exact h
  · have h := claim_C2_https_port_resolution.2
      (AtomService.mk (some "www.google.com") 80 false 0) "https://host/path"
      "host".toList "path".toList (by decide) (by decide) (by decide)
    exact h

/-- C3: for every absolute URL of the form `http://host:port/path` with an
explicit decimal port and a non-empty path, `_ProcessUrl` on a client whose
`ssl` default is off yields exactly (host, port, false, path): the captured
host replaces the configured server, the explicit port is parsed as an
integer, encryption stays off, and the path is the captured path group. -/
theorem claim_C3_http_explicit_port (c : AtomService) (url : String)
    (host ds rest : List Char) (hssl : c.ssl = false)
    (hurl : url.toList = 'h' :: 't' :: 't' :: 'p' :: ':' :: '/' :: '/' ::
      (host ++ ':' :: (ds ++ '/' :: rest)))
    (hw : ∀ x ∈ host, isWordChar x = true) (hd : ds ≠ [])
    (hds : ∀ x ∈ ds, Char.isDigit x = true) (hr : '\n' ∉ rest) :
    c.ProcessUrl url =
      (some (String.mk host), natOfDigits ds, false, String.mk ('/' :: rest)) := by
  unfold AtomService.ProcessUrl
  rw [hurl]
  rw [show urlRegexMatch ('h' :: 't' :: 't' :: 'p' :: ':' :: '/' :: '/' ::
      (host ++ ':' :: (ds ++ '/' :: rest))) =
    some (matchAfterScheme false (host ++ ':' :: (ds ++ '/' :: rest))) from rfl]
  rw [matchAfterScheme_with_port false host ds rest hw hd hds hr]
  simp [hssl]

/-- C3 witness: the theorem applied at a concrete absolute URL. -/
theorem claim_C3_witness :
    (AtomService.mk (some "www.google.com") 80 false 0).ProcessUrl
        "http://base.google.com:8080/base/feeds" =
      (some "base.google.com", 8080, false, "/base/feeds") := by
  have h := claim_C3_http_explicit_port
    (AtomService.mk (some "www.google.com") 80 false 0)
    "http://base.google.com:8080/base/feeds"
    "base.google.com".toList "8080".toList "base/feeds".toList
    rfl (by decide) (by decide) (by decide) (by decide) (by decide)
  exact h

/-- C4: an input that does not match the absolute-URL pattern raises no
exception and resolves to the configured server, port and ssl flag with the
uri equal to the full input; in particular every string starting with `/`
(a relative path) fails the pattern. -/
theorem claim_C4_no_match_defaults :
    (∀ (c : AtomService) (url : String), urlRegexMatch url.toList = none →
      c.ProcessUrl url = (c.server, c.port, c.ssl, url)) ∧
    (∀ rest : List Char, urlRegexMatch ('/' :: rest) = none) := by
  constructor
  · intro c url hm
    unfold AtomService.ProcessUrl
    rw [hm]
  · intro rest
    rfl

/-- C4 witness: the theorem applied at a concrete relative path. -/
theorem claim_C4_witness :
    (AtomService.mk (some "www.google.com") 80 false 0).ProcessUrl
        "/base/feeds/snippets" =
      (some "www.google.com", 80, false, "/base/feeds/snippets") :=
  claim_C4_no_match_defaults.1
    (AtomService.mk (some "www.google.com") 80 false 0) "/base/feeds/snippets" rfl

/-- C1: the claim (and the spec) require `Post`/`Put` to accept
`extraHeaders = none` by allocating a fresh mapping. The code instead
performs item assignment on `None` and raises `TypeError`; this theorem
evaluates `Post` and `Put` at a failing input. -/
theorem claim_C1_post_put_none_raises :
    AtomService.Post [[]] (AtomService.mk (some "base.google.com") 80 false 0)
        (RequestData.stringable "<entry/>") "/base/feeds/items" none none true
        "application/atom+xml" =
      Except.error "TypeError: NoneType object does not support item assignment" ∧
    AtomService.Put [[]] (AtomService.mk (some "base.google.com") 80 false 0)
        (RequestData.stringable "<entry/>") "/base/feeds/items/ITEM-ID" none none
        true "application/atom+xml" =
      Except.error "TypeError: NoneType object does not support item assignment" :=
  ⟨rfl, rfl⟩

/-- C5: `BuildUri` with an absent or empty parameter mapping returns the uri
unchanged, for every uri and escape flag; `BuildUri` is a pure function. -/
theorem claim_C5_BuildUri_identity (uri : String) (escape : Bool) :
    BuildUri uri none escape = uri ∧ BuildUri uri (some []) escape = uri := by
  constructor <;> simp [BuildUri, DictionaryToParamList]

/-- C6: with a non-empty parameter mapping, `BuildUri` joins the encoded
`key=value` strings onto the uri with `&` when the uri already contains `?`,
and inserts a single `?` before the first parameter otherwise; including the
two concrete examples of the claim. -/
theorem claim_C6_BuildUri_join :
    BuildUri "/feeds/items" (some [("max-results", "250")]) true =
      "/feeds/items?max-results=250" ∧
    BuildUri "/feeds/items?x=1" (some [("y", "2")]) true =
      "/feeds/items?x=1&y=2" ∧
    (∀ (uri : String) (ps : Params) (escape : Bool), ps ≠ [] →
      uri.toList.contains '?' = true →
      BuildUri uri (some ps) escape =
        uri ++ "&" ++ joinWith "&" (DictionaryToParamList (some ps) escape)) ∧
    (∀ (uri : String) (ps : Params) (escape : Bool), ps ≠ [] →
      uri.toList.contains '?' = false →
      BuildUri uri (some ps) escape =
        uri ++ "?" ++ joinWith "&" (DictionaryToParamList (some ps) escape)) := by
  refine ⟨by decide, by decide, ?_, ?_⟩
  · intro uri ps escape hps hq
    have hne : DictionaryToParamList (some ps) escape ≠ [] := by
      simp only [DictionaryToParamList, ne_eq, List.map_eq_nil_iff]
      simpa using hps
    simp only [BuildUri]
    rw [if_neg (by simpa [List.isEmpty_iff] using hne), if_pos hq]
    exact joinWith_cons "&" uri _ hne
  · intro uri ps escape hps hq
    have hne : DictionaryToParamList (some ps) escape ≠ [] := by
      simp only [DictionaryToParamList, ne_eq, List.map_eq_nil_iff]
      simpa using hps
    simp only [BuildUri]
    rw [if_neg (by simpa [List.isEmpty_iff] using hne), if_neg (by simpa using hq)]

/-- C6 witness: the two general parts applied at concrete inputs. -/
theorem claim_C6_witness :
    BuildUri "/feeds/items?x=1" (some [("z", "9")]) true =
      "/feeds/items?x=1" ++ "&" ++
        joinWith "&" (DictionaryToParamList (some [("z", "9")]) true) ∧
    BuildUri "/feeds/items" (some [("z", "9")]) true =
      "/feeds/items" ++ "?" ++
        joinWith "&" (DictionaryToParamList (some [("z", "9")]) true) :=
  ⟨claim_C6_BuildUri_join.2.2.1 "/feeds/items?x=1" [("z", "9")] true
      (by decide) (by decide),
   claim_C6_BuildUri_join.2.2.2 "/feeds/items" [("z", "9")] true
      (by decide) (by decide)⟩

/-- C7: `DictionaryToParamList` with escape on applies
x-www-form-urlencoded escaping (`quote_plus`, spaces become `+`) to each
key and value, and with escape off passes both through unchanged; including
the concrete example of the claim. -/
theorem claim_C7_DictionaryToParamList :
    DictionaryToParamList (some [("q", "a b")]) true = ["q=a+b"] ∧
    DictionaryToParamList (some [("q", "a b")]) false = ["q=a b"] ∧
    (∀ ps : Params, DictionaryToParamList (some ps) true =
      ps.map (fun pv => quote_plus pv.1 ++ "=" ++ quote_plus pv.2)) ∧
    (∀ ps : Params, DictionaryToParamList (some ps) false =
      ps.map (fun pv => pv.1 ++ "=" ++ pv.2)) := by
  refine ⟨by decide, by decide, ?_, ?_⟩ <;>
    intro ps <;> simp [DictionaryToParamList]

theorem b64Char_not_ws (n : Nat) : isPyWhitespace (b64Char n) = false := by
  have halph : ∀ c ∈ b64Alphabet, isPyWhitespace c = false := by decide
  unfold b64Char
  rw [show b64Alphabet.getD n 'A' = (b64Alphabet.get? n).getD 'A' from rfl]
  cases hg : b64Alphabet.get? n with
  | none => rfl
  | some c =>
    rw [Option.getD_some]
    exact halph c (List.get?_mem hg)

theorem b64EncodeBytes_not_ws :
    ∀ (l : List Nat), ∀ c ∈ b64EncodeBytes l, isPyWhitespace c = false
  | [] => by simp [b64EncodeBytes]
  | [a] => by
    intro c hc
    simp [b64EncodeBytes] at hc
    rcases hc with rfl | rfl | rfl
    · exact b64Char_not_ws _
    · exact b64Char_not_ws _
    · rfl
  | [a, b] => by
    intro c hc
    simp [b64EncodeBytes] at hc
    rcases hc with rfl | rfl | rfl | rfl
    · exact b64Char_not_ws _
    · exact b64Char_not_ws _
    · exact b64Char_not_ws _
    · rfl
  | a :: b :: d :: rest => by
    intro c hc
    simp [b64EncodeBytes] at hc
    rcases hc with rfl | rfl | rfl | rfl | hmem
    · exact b64Char_not_ws _
    · exact b64Char_not_ws _
    · exact b64Char_not_ws _
    · exact b64Char_not_ws _
    · exact b64EncodeBytes_not_ws rest c hmem

theorem chunksAux_nil : ∀ n : Nat, chunksAux n [] = []
  | 0 => rfl
  | Nat.succ _ => rfl

theorem chunks57_eq_single (l : List Nat) (h0 : l ≠ []) (h57 : l.length ≤ 57) :
    chunks57 l = [l] := by
  unfold chunks57
  cases l with
  | nil => exact absurd rfl h0
  | cons a t =>
    show chunksAux (t.length + 1) (a :: t) = [a :: t]
    rw [show chunksAux (t.length + 1) (a :: t) =
      (a :: t).take 57 :: chunksAux t.length ((a :: t).drop 57) from rfl]
    rw [List.take_of_length_le h57, List.drop_eq_nil_of_le h57, chunksAux_nil]

theorem pyStrip_append_newline (xs : List Char)
    (hxs : ∀ c ∈ xs, isPyWhitespace c = false) :
    pyStrip (String.mk (xs ++ ['\n'])) = String.mk xs := by
  cases xs with
  | nil => rfl
  | cons a t =>
    have ha : isPyWhitespace a = false := hxs a (by simp)
    show String.mk (((((a :: t) ++ ['\n']).dropWhile isPyWhitespace).reverse.dropWhile
        isPyWhitespace).reverse) = String.mk (a :: t)
    have h1 : ((a :: t) ++ ['\n']).dropWhile isPyWhitespace = (a :: t) ++ ['\n'] := by
      rw [List.cons_append, List.dropWhile_cons, ha]
      simp
    have h2 : ((a :: t) ++ ['\n']).reverse = '\n' :: (a :: t).reverse := by
      simp
    have h3 : ('\n' :: (a :: t).reverse).dropWhile isPyWhitespace =
        ((a :: t).reverse).dropWhile isPyWhitespace := rfl
    have h4 : ((a :: t).reverse).dropWhile isPyWhitespace = (a :: t).reverse := by
      apply dropWhile_of_all_neg
      intro x hx
      exact hxs x (List.mem_reverse.1 hx)
    rw [h1, h2, h3, h4, List.reverse_reverse]

theorem pyStrip_encodestring_short (bytes : List Nat) (h57 : bytes.length ≤ 57) :
    pyStrip (encodestring bytes) = b64encode bytes := by
  cases hb : bytes with
  | nil => rfl
  | cons a t =>
    have h0 : bytes ≠ [] := by simp [hb]
    rw [← hb]
    have hc := chunks57_eq_single bytes h0 h57
    unfold encodestring
    rw [hc]
    show pyStrip (String.mk (b64EncodeBytes bytes ++ ['\n'])) = b64encode bytes
    exact pyStrip_append_newline _ (b64EncodeBytes_not_ws bytes)

/-- C8 counterexample: the claim says the stored Authorization value is
`Basic ` followed by the plain base64 of `username:password` with trailing
artifacts stripped. `base64.encodestring` breaks its output into 76-character
MIME lines, and `strip()` removes only the trailing newline, so for a
61-byte credential the stored value keeps an embedded newline and differs
from `Basic ` + base64. -/
theorem claim_C8_counterexample :
    getHeader
        (readRef
          (AtomService.UseBasicAuth [[]] (AtomService.mk none 80 false 0)
            "aaaaaaaaaaaaaaaaaaaaaaaaaaaaaaaaaaaaaaaaaaaaaaaaaa" "bbbbbbbbbb")
          0)
        "Authorization" ≠
      some (HVal.str ("Basic " ++
        b64encode (pyBytes ("aaaaaaaaaaaaaaaaaaaaaaaaaaaaaaaaaaaaaaaaaaaaaaaaaa" ++ ":" ++ "bbbbbbbbbb")))) := by
  decide

/-- C8 amended: `UseBasicAuth` stores, under the exact key `Authorization`
of the default-headers dict (overwriting any prior value and opening no
connection), the string `Basic ` followed by the stripped
`base64.encodestring` encoding of `username:password`; when the credential
string is at most 57 bytes (one MIME line) this equals `Basic ` followed by
the plain base64 of `username:password`, while longer credentials retain
embedded newlines from the 76-character line chunking. -/
theorem claim_C8_basic_auth (σ : Store) (self : AtomService) (u p : String)
    (hr : self.additional_headers < σ.length) :
    readRef (AtomService.UseBasicAuth σ self u p) self.additional_headers =
      setHeader (readRef σ self.additional_headers) "Authorization"
        (HVal.str ("Basic " ++ pyStrip (encodestring (pyBytes (u ++ ":" ++ p))))) ∧
    getHeader (readRef (AtomService.UseBasicAuth σ self u p)
        self.additional_headers) "Authorization" =
      some (HVal.str ("Basic " ++
        pyStrip (encodestring (pyBytes (u ++ ":" ++ p))))) ∧
    ((pyBytes (u ++ ":" ++ p)).length ≤ 57 →
      pyStrip (encodestring (pyBytes (u ++ ":" ++ p))) =
        b64encode (pyBytes (u ++ ":" ++ p))) := by
  have h1 : readRef (AtomService.UseBasicAuth σ self u p) self.additional_headers =
      setHeader (readRef σ self.additional_headers) "Authorization"
        (HVal.str ("Basic " ++ pyStrip (encodestring (pyBytes (u ++ ":" ++ p))))) := by
    unfold AtomService.UseBasicAuth
    exact readRef_writeRef_self σ _ _ hr
  refine ⟨h1, ?_, ?_⟩
  · rw [h1]
    exact getHeader_setHeader_self _ _ _
  · intro hlen
    exact pyStrip_encodestring_short _ hlen

/-- C8 witness: the amended theorem applied to a short credential pair. -/
theorem claim_C8_witness :
    getHeader
        (readRef
          (AtomService.UseBasicAuth [[]] (AtomService.mk none 80 false 0)
            "user" "pass") 0)
        "Authorization" =
      some (HVal.str ("Basic " ++
        pyStrip (encodestring (pyBytes ("user" ++ ":" ++ "pass"))))) ∧
    pyStrip (encodestring (pyBytes ("user" ++ ":" ++ "pass"))) =
      b64encode (pyBytes ("user" ++ ":" ++ "pass")) :=
  ⟨(claim_C8_basic_auth [[]] (AtomService.mk none 80 false 0) "user" "pass"
      (by decide)).2.1,
   (claim_C8_basic_auth [[]] (AtomService.mk none 80 false 0) "user" "pass"
      (by decide)).2.2 (by decide)⟩

theorem post_headers_shape (σ : Store) (r : Ref) (len : Nat) (ct : String)
    (hr : r < σ.length) :
    readRef
      (writeRef
        (writeRef σ r (setHeader (readRef σ r) "Content-Length" (HVal.nat len)))
        r
        (setHeader
          (readRef
            (writeRef σ r
              (setHeader (readRef σ r) "Content-Length" (HVal.nat len))) r)
          "Content-Type" (HVal.str ct))) r =
    setHeader (setHeader (readRef σ r) "Content-Length" (HVal.nat len))
      "Content-Type" (HVal.str ct) := by
  rw [readRef_writeRef_self _ _ _ (by rw [length_writeRef]; exact hr),
    readRef_writeRef_self _ _ _ hr]

theorem contentHeaders_get (h : Headers) (len : Nat) (ct : String) :
    getHeader (setHeader (setHeader h "Content-Length" (HVal.nat len))
        "Content-Type" (HVal.str ct)) "Content-Length" = some (HVal.nat len) ∧
    getHeader (setHeader (setHeader h "Content-Length" (HVal.nat len))
        "Content-Type" (HVal.str ct)) "Content-Type" = some (HVal.str ct) ∧
    ∀ l₁ : List (String × HVal),
      effectiveHeader (l₁ ++ setHeader (setHeader h "Content-Length" (HVal.nat len))
          "Content-Type" (HVal.str ct)) "Content-Length" = some (HVal.nat len) ∧
      effectiveHeader (l₁ ++ setHeader (setHeader h "Content-Length" (HVal.nat len))
          "Content-Type" (HVal.str ct)) "Content-Type" = some (HVal.str ct) := by
  have hne : "Content-Length" ≠ "Content-Type" := by decide
  refine ⟨?_, ?_, ?_⟩
  · rw [getHeader_setHeader_ne _ _ _ _ hne]
    exact getHeader_setHeader_self _ _ _
  · exact getHeader_setHeader_self _ _ _
  · intro l₁
    constructor
    · apply effectiveHeader_append_extra
      · exact (mem_setHeader_ne _ _ _ _ _ hne).2
          (mem_setHeader_self h "Content-Length" (HVal.nat len))
      · intro v' hv'
        exact mem_setHeader_key h "Content-Length" (HVal.nat len) v'
          ((mem_setHeader_ne _ _ _ _ _ hne).1 hv')
    · apply effectiveHeader_append_extra
      · exact mem_setHeader_self _ "Content-Type" (HVal.str ct)
      · intro v' hv'
        exact mem_setHeader_key _ "Content-Type" (HVal.str ct) v' hv'

/-- C9: for every call to `Post` or `Put` with a dict `extraHeaders`, the
call succeeds, the dict afterwards holds `Content-Length` equal to the
length of the serialized body (the XML element serialized to text, or the
value coerced to its string form) and `Content-Type` equal to the provided
content type (the source default being `application/atom+xml`), and those
entries govern the emitted header lines, overwriting any prior values
stored under those exact keys. -/
theorem claim_C9_post_put_content_headers (σ : Store) (self : AtomService)
    (data : RequestData) (uri : String) (r : Ref) (params : Option Params)
    (escape : Bool) (ct : String) (hr : r < σ.length) :
    (∃ σ2 req,
      AtomService.Post σ self data uri (some r) params escape ct =
        Except.ok (σ2, req) ∧
      getHeader (readRef σ2 r) "Content-Length" =
        some (HVal.nat data.serialize.length) ∧
      getHeader (readRef σ2 r) "Content-Type" = some (HVal.str ct) ∧
      effectiveHeader req.headerLines "Content-Length" =
        some (HVal.nat data.serialize.length) ∧
      effectiveHeader req.headerLines "Content-Type" = some (HVal.str ct)) ∧
    (∃ σ2 req,
      AtomService.Put σ self data uri (some r) params escape ct =
        Except.ok (σ2, req) ∧
      getHeader (readRef σ2 r) "Content-Length" =
        some (HVal.nat data.serialize.length) ∧
      getHeader (readRef σ2 r) "Content-Type" = some (HVal.str ct) ∧
      effectiveHeader req.headerLines "Content-Length" =
        some (HVal.nat data.serialize.length) ∧
      effectiveHeader req.headerLines "Content-Type" = some (HVal.str ct)) := by
  constructor
  · refine ⟨_, _, rfl, ?_, ?_, ?_, ?_⟩
    · rw [post_headers_shape σ r _ ct hr]
      exact (contentHeaders_get (readRef σ r) _ ct).1
    · rw [post_headers_shape σ r _ ct hr]
      exact (contentHeaders_get (readRef σ r) _ ct).2.1
    · simp only [AtomService.CreateConnection]
      rw [post_headers_shape σ r _ ct hr]
      exact ((contentHeaders_get (readRef σ r) _ ct).2.2 _).1
    · simp only [AtomService.CreateConnection]
      rw [post_headers_shape σ r _ ct hr]
      exact ((contentHeaders_get (readRef σ r) _ ct).2.2 _).2
  · refine ⟨_, _, rfl, ?_, ?_, ?_, ?_⟩
    · rw [post_headers_shape σ r _ ct hr]
      exact (contentHeaders_get (readRef σ r) _ ct).1
    · rw [post_headers_shape σ r _ ct hr]
      exact (contentHeaders_get (readRef σ r) _ ct).2.1
    · simp only [AtomService.CreateConnection]
      rw [post_headers_shape σ r _ ct hr]
      exact ((contentHeaders_get (readRef σ r) _ ct).2.2 _).1
    · simp only [AtomService.CreateConnection]
      rw [post_headers_shape σ r _ ct hr]
      exact ((contentHeaders_get (readRef σ r) _ ct).2.2 _).2

/-- C9 witness: the theorem applied at a concrete store, service, body and
extra-headers dict. -/
theorem claim_C9_witness :
    (1 : Nat) < 2 ∧
    ((∃ σ2 req,
      AtomService.Post [[], []] (AtomService.mk (some "base.google.com") 80 false 0)
          (RequestData.stringable "<entry/>") "/base/feeds/items" (some 1) none
          true "application/atom+xml" = Except.ok (σ2, req) ∧
      getHeader (readRef σ2 1) "Content-Length" =
        some (HVal.nat (RequestData.stringable "<entry/>").serialize.length) ∧
      getHeader (readRef σ2 1) "Content-Type" =
        some (HVal.str "application/atom+xml") ∧
      effectiveHeader req.headerLines "Content-Length" =
        some (HVal.nat (RequestData.stringable "<entry/>").serialize.length) ∧
      effectiveHeader req.headerLines "Content-Type" =
        some (HVal.str "application/atom+xml")) ∧
    (∃ σ2 req,
      AtomService.Put [[], []] (AtomService.mk (some "base.google.com") 80 false 0)
          (RequestData.stringable "<entry/>") "/base/feeds/items" (some 1) none
          true "application/atom+xml" = Except.ok (σ2, req) ∧
      getHeader (readRef σ2 1) "Content-Length" =
        some (HVal.nat (RequestData.stringable "<entry/>").serialize.length) ∧
      getHeader (readRef σ2 1) "Content-Type" =
        some (HVal.str "application/atom+xml") ∧
      effectiveHeader req.headerLines "Content-Length" =
        some (HVal.nat (RequestData.stringable "<entry/>").serialize.length) ∧
      effectiveHeader req.headerLines "Content-Type" =
        some (HVal.str "application/atom+xml"))) :=
  ⟨by decide,
   claim_C9_post_put_content_headers [[], []]
     (AtomService.mk (some "base.google.com") 80 false 0)
     (RequestData.stringable "<entry/>") "/base/feeds/items" 1 none true
     "application/atom+xml" (by decide)⟩

/-- C10 counterexample: the claim says every dict passed as
`additional_headers` to the constructor gains the `User-Agent` key. An
empty dict is falsy, so `additional_headers or {}` replaces it by a fresh
dict: after construction the empty dict of the caller is untouched (no
`User-Agent` entry) and the client holds a different reference. -/
theorem claim_C10_counterexample :
    getHeader (readRef (AtomService.init [[]] (some "example.com") (some 0)).1 0)
        "User-Agent" = none ∧
    (AtomService.init [[]] (some "example.com") (some 0)).2.additional_headers ≠ 0 := by
  decide

/-- C10 amended: the client aliases and mutates caller-owned dicts in place,
except that a falsy (empty) `additional_headers` dict is replaced by a fresh
one: every non-empty dict passed to the constructor is retained by reference
and gains (or has overwritten) the `User-Agent` entry, and every dict passed
as `extraHeaders` to `Post` or `Put` afterwards contains the injected
`Content-Length` and `Content-Type` entries. -/
theorem claim_C10_aliasing :
    (∀ (σ : Store) (srv : Option String) (r : Ref), r < σ.length →
      (readRef σ r).isEmpty = false →
      ((AtomService.init σ srv (some r)).2.additional_headers = r ∧
       getHeader (readRef (AtomService.init σ srv (some r)).1 r) "User-Agent" =
         some (HVal.str "Python Google Data Client Lib"))) ∧
    (∀ (σ : Store) (self : AtomService) (data : RequestData) (uri : String)
        (r : Ref) (params : Option Params) (escape : Bool) (ct : String)
        (σ2 : Store) (req : Request), r < σ.length →
      AtomService.Post σ self data uri (some r) params escape ct =
        Except.ok (σ2, req) →
      getHeader (readRef σ2 r) "Content-Length" =
        some (HVal.nat data.serialize.length) ∧
      getHeader (readRef σ2 r) "Content-Type" = some (HVal.str ct)) ∧
    (∀ (σ : Store) (self : AtomService) (data : RequestData) (uri : String)
        (r : Ref) (params : Option Params) (escape : Bool) (ct : String)
        (σ2 : Store) (req : Request), r < σ.length →
      AtomService.Put σ self data uri (some r) params escape ct =
        Except.ok (σ2, req) →
      getHeader (readRef σ2 r) "Content-Length" =
        some (HVal.nat data.serialize.length) ∧
      getHeader (readRef σ2 r) "Content-Type" = some (HVal.str ct)) := by
  refine ⟨?_, ?_, ?_⟩
  · intro σ srv r hr hem
    constructor
    · simp [AtomService.init, hem]
    · have h1 : readRef (AtomService.init σ srv (some r)).1 r =
          setHeader (readRef σ r) "User-Agent"
            (HVal.str "Python Google Data Client Lib") := by
        simp only [AtomService.init, hem, Bool.false_eq_true, if_false]
        exact readRef_writeRef_self σ r _ hr
      rw [h1]
      exact getHeader_setHeader_self _ _ _
  · intro σ self data uri r params escape ct σ2 req hr heq
    simp only [AtomService.Post, Except.ok.injEq, Prod.mk.injEq] at heq
    obtain ⟨hσ, hreq⟩ := heq
    subst hσ
    rw [post_headers_shape σ r _ ct hr]
    exact ⟨(contentHeaders_get (readRef σ r) _ ct).1,
      (contentHeaders_get (readRef σ r) _ ct).2.1⟩
  · intro σ self data uri r params escape ct σ2 req hr heq
    simp only [AtomService.Put, Except.ok.injEq, Prod.mk.injEq] at heq
    obtain ⟨hσ, hreq⟩ := heq
    subst hσ
    rw [post_headers_shape σ r _ ct hr]
    exact ⟨(contentHeaders_get (readRef σ r) _ ct).1,
      (contentHeaders_get (readRef σ r) _ ct).2.1⟩

/-- C10 witness: all three parts of the amended theorem applied at concrete
inputs — a non-empty constructor dict, and concrete `Post`/`Put` calls whose
result stores are spelled out. -/
theorem claim_C10_witness :
    ((AtomService.init [[("X-Test", HVal.str "y")]] (some "example.com")
        (some 0)).2.additional_headers = 0 ∧
     getHeader (readRef (AtomService.init [[("X-Test", HVal.str "y")]]
        (some "example.com") (some 0)).1 0) "User-Agent" =
       some (HVal.str "Python Google Data Client Lib")) ∧
    (getHeader
        (readRef [[], [("Content-Length", HVal.nat 8),
          ("Content-Type", HVal.str "application/atom+xml")]] 1)
        "Content-Length" =
      some (HVal.nat (RequestData.stringable "<entry/>").serialize.length) ∧
     getHeader
        (readRef [[], [("Content-Length", HVal.nat 8),
          ("Content-Type", HVal.str "application/atom+xml")]] 1)
        "Content-Type" = some (HVal.str "application/atom+xml")) ∧
    (getHeader
        (readRef [[], [("Content-Length", HVal.nat 8),
          ("Content-Type", HVal.str "application/atom+xml")]] 1)
        "Content-Length" =
      some (HVal.nat (RequestData.stringable "<entry/>").serialize.length) ∧
     getHeader
        (readRef [[], [("Content-Length", HVal.nat 8),
          ("Content-Type", HVal.str "application/atom+xml")]] 1)
        "Content-Type" = some (HVal.str "application/atom+xml")) :=
  ⟨claim_C10_aliasing.1 [[("X-Test", HVal.str "y")]] (some "example.com") 0
      (by decide) (by decide),
   claim_C10_aliasing.2.1 [[], []]
      (AtomService.mk (some "base.google.com") 80 false 0)
      (RequestData.stringable "<entry/>") "/base/feeds/items" 1 none true
      "application/atom+xml"
      [[], [("Content-Length", HVal.nat 8),
        ("Content-Type", HVal.str "application/atom+xml")]]
      { http_operation := "POST", server := some "base.google.com", port := 80,
        ssl := false, uri := "/base/feeds/items",
        headerLines := [("Content-Length", HVal.nat 8),
          ("Content-Type", HVal.str "application/atom+xml")],
        body := some "<entry/>" }
      (by decide) rfl,
   claim_C10_aliasing.2.2 [[], []]
      (AtomService.mk (some "base.google.com") 80 false 0)
      (RequestData.stringable "<entry/>") "/base/feeds/items/ITEM-ID" 1 none true
      "application/atom+xml"
      [[], [("Content-Length", HVal.nat 8),
        ("Content-Type", HVal.str "application/atom+xml")]]
      { http_operation := "PUT", server := some "base.google.com", port := 80,
        ssl := false, uri := "/base/feeds/items/ITEM-ID",
        headerLines := [("Content-Length", HVal.nat 8),
          ("Content-Type", HVal.str "application/atom+xml")],
        body := some "<entry/>" }
      (by decide) rfl⟩
